import Mathlib

/-!
Shallow embedding of `src/fastqreader.cpp`: the chunked-buffer FASTQ reader
(`FastqReader::readToBuf`, `scan_buf`, `next`, `FastqReader::getLine`,
`FastqReader::read`) and the paired reader (`FastqReaderPair::read`).

Bytes are modelled as `Char`, buffers and strings as `List Char`.  The byte
source (`fread`/`gzread`) is modelled by an explicit `input` list of the bytes
not yet pulled into the chunk buffer, together with the stream's end-of-file
flag (`feof`/`gzeof` becomes true exactly when a refill request cannot be
served in full).  Out-of-bounds byte reads performed by the C++ code
(`mBuf[mBufDataLen-1]` when a refill returned zero bytes, and
`std::string::back()` on an empty string) are modelled by an unspecified
byte `oob` carried in the state, and a ghost flag `oobAccessed` records that
such an access happened.  Reads that fail at the I/O level (`gzread`
returning -1) are not modelled; every modelled refill succeeds.
-/

namespace Fastq

/-- `#define FQ_BUF_SIZE (1<<20)` — the fixed chunk capacity. -/
def FQ_BUF_SIZE : Nat := 1 <<< 20

/-- The line scanner's state (the `state` member driving `FastqReader::getLine`).
`INITIAL` scans the current chunk, `NEW_CHUNK` decides whether to refill,
`DONE` is terminal. -/
inductive ScanState where
  | INITIAL
  | NEW_CHUNK
  | DONE
deriving DecidableEq, Repr

/-- The whole reader state: the unread tail of the byte stream, the stream's
eof flag, the chunk buffer (`mBuf`/`mBufDataLen`), the never-advanced
`mBufUsedLen`, the scan cursor (`ctx.start`, `ctx.end`), the partial-line
accumulator (`ctx.partial`), the scanner state, `mHasNoLineBreakAtEnd`,
the zip fields checked by `read()`, the reader configuration
(`mHasQuality`, `mPhred64`), plus the unspecified out-of-bounds byte `oob`
and the ghost flag `oobAccessed`. -/
structure RState where
  input : List Char
  eofF : Bool
  buf : List Char
  bufUsedLen : Nat
  start : Nat
  endPos : Nat
  pline : List Char
  scState : ScanState
  noLB : Bool
  zipped : Bool
  zipNull : Bool
  hasQuality : Bool
  phred64 : Bool
  oob : Char
  oobAccessed : Bool
deriving DecidableEq, Repr

/-- The byte `mBuf[len-1]`: last valid byte of the chunk, or the unspecified
out-of-bounds byte when the chunk is empty (index -1). -/
def lastByte (l : List Char) (oob : Char) : Char := l.getLastD oob

/-- `FastqReader::readToBuf`: pull up to `FQ_BUF_SIZE` bytes from the source
into the chunk buffer, reset `mBufUsedLen` and the scan cursor, and run the
no-line-break-at-end check.  The check fires whenever the chunk is short and
reads `mBuf[mBufDataLen-1]`, which is out of bounds when the chunk is empty;
it only ever sets `mHasNoLineBreakAtEnd` to true (no recomputation). -/
def readToBuf (s : RState) : RState :=
  let chunk := s.input.take FQ_BUF_SIZE
  let rest := s.input.drop FQ_BUF_SIZE
  let eofNew := s.eofF || decide (s.input.length < FQ_BUF_SIZE)
  let noLBNew :=
    if chunk.length < FQ_BUF_SIZE then
      (if lastByte chunk s.oob ≠ '\n' then true else s.noLB)
    else s.noLB
  let oobNew :=
    if chunk.length < FQ_BUF_SIZE then (s.oobAccessed || chunk.isEmpty)
    else s.oobAccessed
  { s with buf := chunk, input := rest, eofF := eofNew, bufUsedLen := 0,
           start := 0, endPos := 0, noLB := noLBNew, oobAccessed := oobNew }

/-- Offset (relative to a suffix of the buffer) of the first `'\n'`, or the
suffix's length when there is none: the distance `ctx.end` advances in
`scan_buf`. -/
def scanCount : List Char → Nat
  | [] => 0
  | c :: cs => if c = '\n' then 0 else scanCount cs + 1

/-- `scan_buf`: advance `ctx.end` to the next `'\n'` in `[end, len)`, or to
`len` when there is none.  Returns the final value of `ctx.end`. -/
def scanEnd (buf : List Char) (e : Nat) : Nat := e + scanCount (buf.drop e)

/-- `next(ctx, &complete)`: run `scan_buf`, extract `buf[start..end)`, and on
a found terminator skip past it (`ctx.start = ctx.end = end+1`).  Returns
(line segment, complete?, updated state). -/
def nextLine (s : RState) : List Char × Bool × RState :=
  let e := scanEnd s.buf s.endPos
  let line := (s.buf.drop s.start).take (e - s.start)
  if e = s.buf.length then
    (line, false, { s with endPos := e })
  else
    (line, true, { s with start := e + 1, endPos := e + 1 })

/-- The carriage-return normalization applied to `ctx.partial` on the
terminator-found path of `getLine`: inspect the last character
(`ctx.partial.back()`, the out-of-bounds byte when the line is empty) and
pop it if it is `'\r'`. -/
def trimCR (l : List Char) (oob : Char) : List Char :=
  if lastByte l oob = '\r' then l.dropLast else l

/-- Rank used by the termination measure of the `getLine` loop. -/
def scRank : ScanState → Nat
  | .DONE => 0
  | .NEW_CHUNK => 1
  | .INITIAL => 2

/-- Potential bounding the remaining iterations of the `getLine` loop: each
loop step strictly decreases it (a refill either consumes input bytes or
raises the eof flag). -/
def phi (s : RState) : Nat :=
  2 * s.input.length + (if s.eofF then 0 else 2) + scRank s.scState

/-- The loop body of `FastqReader::getLine`, with an explicit iteration bound
`g` (`phi s + 1` iterations always suffice, see `getLineAux_phi_irrel`).
`INITIAL`: run `next`; on a complete line, append to `ctx.partial`, strip a
trailing `'\r'`, clear `ctx.partial` and return; otherwise accumulate into
`ctx.partial` and go to `NEW_CHUNK`.  `NEW_CHUNK`: if the chunk was short,
empty, or the source is at eof, enter the terminal `DONE` state and return
the empty string (discarding `ctx.partial`); otherwise refill and rescan.
`DONE`: always return the empty string. -/
def getLineAux : Nat → RState → List Char × RState
  | 0, s => ([], s)
  | g + 1, s =>
    match s.scState with
    | .DONE => ([], s)
    | .INITIAL =>
      let r := nextLine s
      let pl := r.2.2.pline ++ r.1
      if r.2.1 then
        (trimCR pl s.oob,
         { r.2.2 with pline := [],
                      oobAccessed := r.2.2.oobAccessed || pl.isEmpty })
      else
        getLineAux g { r.2.2 with pline := pl, scState := .NEW_CHUNK }
    | .NEW_CHUNK =>
      if s.buf.length < FQ_BUF_SIZE ∨ s.buf.length = 0 ∨ s.eofF = true then
        ([], { s with scState := .DONE })
      else
        getLineAux g { (readToBuf s) with scState := .INITIAL }

/-- `FastqReader::getLine`. -/
def getLine (s : RState) : List Char × RState := getLineAux (phi s + 1) s

/-- The reader state after the constructor plus `FastqReader::init` for a
plain (non-gzip) source: zero all fields, then perform the initial
`readToBuf`. -/
def initRState (inp : List Char) (hq p64 : Bool) (oob : Char) : RState :=
  readToBuf
    { input := inp, eofF := false, buf := [], bufUsedLen := 0,
      start := 0, endPos := 0, pline := [], scState := .INITIAL,
      noLB := false, zipped := false, zipNull := false,
      hasQuality := hq, phred64 := p64, oob := oob, oobAccessed := false }

/-- Modelled from the spec: the Record value type (class `Read` of read.h,
which is not part of src/): identifier line, sequence line, separator line,
quality line, and the carried phred-offset flag, exactly the five
constructor arguments `Read(name, sequence, strand, quality, phred64)`. -/
structure Read where
  mName : List Char
  mSeq : List Char
  mStrand : List Char
  mQuality : List Char
  phred64 : Bool
deriving DecidableEq, Repr

/-- `mBufUsedLen >= mBufDataLen && eof()` — the (broken, since `mBufUsedLen`
is never advanced) buffer-exhaustion test used by `FastqReader::read`. -/
def atBufEndB (s : RState) : Bool :=
  decide (s.buf.length ≤ s.bufUsedLen) && s.eofF

/-- The condition of the identifier skip loop in `FastqReader::read`:
`(name.empty() && !(mBufUsedLen >= mBufDataLen && eof())) ||
 (!name.empty() && name[0] != '@')`. -/
def skipCond (name : List Char) (s : RState) : Bool :=
  (name.isEmpty && !(atBufEndB s)) ||
  (!name.isEmpty && !(name.head? == some '@'))

/-- The `while` skip loop of `FastqReader::read`, with fuel counting loop
iterations: `none` means the fuel ran out with the loop still running
(the C++ loop would still be running after that many iterations). -/
def skipLoop : Nat → List Char → RState → Option (List Char × RState)
  | 0, name, s =>
    if skipCond name s = true then none else some (name, s)
  | f + 1, name, s =>
    if skipCond name s = true then
      skipLoop f (getLine s).1 (getLine s).2
    else some (name, s)

/-- `FastqReader::read`: the zip-handle null check, the (broken) exhaustion
check, the identifier line with its skip loop, sequence and separator lines,
then either the synthesized placeholder quality (`hasQuality` false) or the
real quality line with the length check.  The outer `Option` is the skip
loop's fuel: `none` means `read()` has not returned within that fuel. -/
def readF (fuel : Nat) (s : RState) : Option (Option Read × RState) :=
  if s.zipped = true ∧ s.zipNull = true then some (none, s)
  else if atBufEndB s = true then some (none, s)
  else
    let n1 := getLine s
    if n1.1 = [] then some (none, n1.2)
    else
      match skipLoop fuel n1.1 n1.2 with
      | none => none
      | some ns =>
        if ns.1 = [] then some (none, ns.2)
        else
          let r2 := getLine ns.2
          let r3 := getLine r2.2
          if s.hasQuality = false then
            some (some ⟨ns.1, r2.1, r3.1, List.replicate r2.1.length 'K',
                        s.phred64⟩, r3.2)
          else
            let r4 := getLine r3.2
            if r4.1.length ≠ r2.1.length then some (none, r4.2)
            else some (some ⟨ns.1, r2.1, r3.1, r4.1, s.phred64⟩, r4.2)

/-- `FastqReaderPair`'s state: the interleaved flag and the two underlying
readers (`mRight` is NULL in interleaved mode; the model keeps an unused
placeholder there). -/
structure PairState where
  interleaved : Bool
  left : RState
  right : RState
deriving DecidableEq, Repr

/-- `if(!l || !r) return NULL; else return new ReadPair(l, r);`. -/
def mkPair : Option Read → Option Read → Option (Read × Read)
  | some a, some b => some (a, b)
  | _, _ => none

/-- `FastqReaderPair::read`: one draw from the left reader, then a second
draw from the left reader (interleaved) or one draw from the right reader
(non-interleaved); null unless both succeeded.  `none` again means some
underlying `read()` did not return within the fuel. -/
def pairRead (fuel : Nat) (p : PairState) :
    Option (Option (Read × Read) × PairState) :=
  match readF fuel p.left with
  | none => none
  | some lr =>
    if p.interleaved = true then
      match readF fuel lr.2 with
      | none => none
      | some rr =>
        some (mkPair lr.1 rr.1, ⟨p.interleaved, rr.2, p.right⟩)
    else
      match readF fuel p.right with
      | none => none
      | some rr =>
        some (mkPair lr.1 rr.1, ⟨p.interleaved, lr.2, rr.2⟩)

/-- Modelled from the spec: the filename-suffix classification helper
`ends_with` (declared in util.h, which is not part of src/): whether `s`
ends with `suffix`. -/
def ends_with (s suffix : List Char) : Bool := suffix.isSuffixOf s

/-- Outcome of the constructor's `init()`: either the `error_exit` path
(fatal, surfaced at construction) or a constructed reader, recording
whether it is zipped and whether its zip handle is NULL. -/
inductive InitResult where
  | fatalError
  | reader (zipped : Bool) (zipNull : Bool)
deriving DecidableEq, Repr

/-- The open logic of `FastqReader::init`, with `openOK` abstracting whether
the OS-level open (`gzopen`/`fopen`) succeeds on this path: a ".gz" filename
takes the gzip branch, which stores the `gzopen` result without any check;
otherwise "/dev/stdin" uses the stdin handle, and any other filename is
opened with `fopen`, whose NULL result triggers `error_exit`. -/
def initOpen (filename : List Char) (openOK : Bool) : InitResult :=
  if ends_with filename ".gz".toList = true then
    InitResult.reader true (!openOK)
  else if filename = "/dev/stdin".toList then InitResult.reader false false
  else if openOK = true then InitResult.reader false false
  else InitResult.fatalError

/-! Concrete states used to exercise the model.  `rdStep`/`pairStep` run one
`read()` call (with ample skip-loop fuel — none of these inputs make the
skip loop iterate more than once) and keep the resulting reader state. -/

/-- One `read()` call, keeping the post-call state. -/
def rdStep (s : RState) : RState := ((readF 5 s).getD (none, s)).2

/-- One `FastqReaderPair::read()` call, keeping the post-call state. -/
def pairStep (p : PairState) : PairState := ((pairRead 5 p).getD (none, p)).2

/-- The spec's running example input. -/
def exInput : List Char := "@r1\nACGT\n+\nIIII\n@r2\nGGTT\n+\nJJJJ\n".toList

def c6s0 : RState := initRState exInput true false 'z'
def c6s1 : RState := rdStep c6s0
def c6s2 : RState := rdStep c6s1
def c6s3 : RState := rdStep c6s2

/-- Input whose first record has a 2-byte sequence but 4-byte quality. -/
def c1input : List Char := "@r1\nAC\n+\nIIII\n@r2\nGGTT\n+\nJJJJ\n".toList

def c1s0 : RState := initRState c1input true false 'z'
def c1s1 : RState := rdStep c1s0

/-- A one-line file with no trailing line terminator. -/
def c2as0 : RState := initRState "A".toList true false 'z'

/-- A full record whose last line has no trailing line terminator. -/
def c2bs0 : RState := initRState "@r1\nACGT\n+\nIIII".toList true false 'z'

/-- The same record with the trailing line terminator present. -/
def c2cs0 : RState := initRState "@r1\nACGT\n+\nIIII\n".toList true false 'z'

/-- A file whose only line is garbage (does not start with `'@'`). -/
def c3s0 : RState := initRState "xyz\n".toList true false 'z'

def c3s1 : RState := (getLine c3s0).2

/-- The scanner state after exhaustion on the garbage file: a fixpoint of
`getLine` on which the skip-loop condition stays true. -/
def c3t : RState := (getLine c3s1).2

/-- A state about to refill from a source whose next chunk is short and ends
in a line terminator, with the no-line-break flag already latched true. -/
def c5latch : RState :=
  { input := "ab\n".toList, eofF := false, buf := [], bufUsedLen := 0,
    start := 0, endPos := 0, pline := [], scState := .INITIAL,
    noLB := true, zipped := false, zipNull := false,
    hasQuality := true, phred64 := false, oob := 'x', oobAccessed := false }

/-- A state about to perform a refill that returns zero bytes. -/
def c5zero : RState := { c5latch with input := [], noLB := false }

/-- A three-line record read with `hasQuality = false`. -/
def c7s0 : RState := initRState "@r1\nACGT\n+\n".toList false false 'z'

def c7s1 : RState := rdStep c7s0

/-- A file whose only logical line is empty (a lone line terminator). -/
def c10s0 : RState := initRState "\n".toList true false 'z'

/-- A line ending in a carriage return before its line terminator. -/
def c8s0 : RState := initRState "ab\r\n".toList true false 'z'

def pA : Read := ⟨"@a".toList, "AA".toList, "+".toList, "II".toList, false⟩
def pB : Read := ⟨"@b".toList, "CC".toList, "+".toList, "II".toList, false⟩
def pC : Read := ⟨"@c".toList, "GG".toList, "+".toList, "II".toList, false⟩
def pD : Read := ⟨"@d".toList, "TT".toList, "+".toList, "II".toList, false⟩
def pX : Read := ⟨"@x".toList, "TT".toList, "+".toList, "II".toList, false⟩
def pY : Read := ⟨"@y".toList, "AA".toList, "+".toList, "II".toList, false⟩

/-- A left file with three records. -/
def pl3 : List Char := "@a\nAA\n+\nII\n@b\nCC\n+\nII\n@c\nGG\n+\nII\n".toList

/-- A right file with two records. -/
def pr2 : List Char := "@x\nTT\n+\nII\n@y\nAA\n+\nII\n".toList

def p9s0 : PairState :=
  ⟨false, initRState pl3 true false 'z', initRState pr2 true false 'z'⟩
def p9s1 : PairState := pairStep p9s0
def p9s2 : PairState := pairStep p9s1

/-- An interleaved file with four records. -/
def i4 : List Char :=
  "@a\nAA\n+\nII\n@b\nCC\n+\nII\n@c\nGG\n+\nII\n@d\nTT\n+\nII\n".toList

def q9s0 : PairState :=
  ⟨true, initRState i4 true false 'z', initRState [] true false 'z'⟩
def q9s1 : PairState := pairStep q9s0
def q9s2 : PairState := pairStep q9s1

/-- An exhausted empty-source reader: `read()` returns null immediately. -/
def c9e : RState := initRState [] true false 'z'

def c9eP : PairState := ⟨false, c9e, c9e⟩

/-- `next` does not touch the input stream. -/
theorem nextLine_input (s : RState) : (nextLine s).2.2.input = s.input := by
  simp only [nextLine]
  split <;> rfl

/-- `next` does not touch the stream's eof flag. -/
theorem nextLine_eofF (s : RState) : (nextLine s).2.2.eofF = s.eofF := by
  simp only [nextLine]
  split <;> rfl

/-- `readToBuf` consumes one chunk from the input stream. -/
theorem readToBuf_input (s : RState) :
    (readToBuf s).input = s.input.drop FQ_BUF_SIZE := rfl

/-- `readToBuf` raises the eof flag exactly when the request was short. -/
theorem readToBuf_eofF (s : RState) :
    (readToBuf s).eofF = (s.eofF || decide (s.input.length < FQ_BUF_SIZE)) :=
  rfl

/-- The potential of the state entering a `NEW_CHUNK` step, in closed form
(the potential ignores the partial-line accumulator). -/
theorem phi_pline_nc (t : RState) (p : List Char) :
    phi { t with pline := p, scState := ScanState.NEW_CHUNK } =
      2 * t.input.length + (if t.eofF = true then 0 else 2) + 1 := rfl

/-- The potential of the state entering a post-refill rescan, in closed
form. -/
theorem phi_refill_init (t : RState) :
    phi { t with scState := ScanState.INITIAL } =
      2 * t.input.length + (if t.eofF = true then 0 else 2) + 2 := rfl

/-- Adequacy of the iteration bound: any bound above the potential `phi`
computes the same result, so `getLine`'s bound `phi s + 1` is not an
artificial truncation of the C++ `while` loop — the loop runs to its real
exit on every input. -/
theorem getLineAux_phi_irrel :
    ∀ (n : Nat) (s : RState) (g g' : Nat), phi s ≤ n → phi s < g →
      phi s < g' → getLineAux g s = getLineAux g' s := by
  intro n
  induction n with
  | zero =>
    intro s g g' hn hg hg'
    have h0 : phi s = 0 := Nat.le_zero.mp hn
    have hd : s.scState = ScanState.DONE := by
      cases hsc : s.scState
      · exfalso
        cases hE : s.eofF <;> simp [phi, scRank, hsc, hE] at h0
      · exfalso
        cases hE : s.eofF <;> simp [phi, scRank, hsc, hE] at h0
      · rfl
    obtain ⟨k, rfl⟩ : ∃ k, g = k + 1 := ⟨g - 1, by omega⟩
    obtain ⟨k2, rfl⟩ : ∃ k2, g' = k2 + 1 := ⟨g' - 1, by omega⟩
    simp [getLineAux, hd]
  | succ n ih =>
    intro s g g' hn hg hg'
    obtain ⟨k, rfl⟩ : ∃ k, g = k + 1 := ⟨g - 1, by omega⟩
    obtain ⟨k2, rfl⟩ : ∃ k2, g' = k2 + 1 := ⟨g' - 1, by omega⟩
    cases hsc : s.scState with
    | DONE => simp [getLineAux, hsc]
    | INITIAL =>
      simp only [getLineAux, hsc]
      split
      · rfl
      · have h1 := nextLine_input s
        have h2 := nextLine_eofF s
        have hps : phi s = 2 * s.input.length +
            (if s.eofF = true then 0 else 2) + 2 := by
          simp [phi, scRank, hsc]
        apply ih
        all_goals rw [phi_pline_nc, h1, h2]
        all_goals rw [hps] at hn hg hg'
        all_goals omega
    | NEW_CHUNK =>
      simp only [getLineAux, hsc]
      split
      · rfl
      · rename_i hcond
        have hef : s.eofF = false := by
          simp at hcond
          exact hcond.2.2
        have hps : phi s = 2 * s.input.length + 2 + 1 := by
          simp [phi, scRank, hsc, hef]
        have hC : 1 ≤ FQ_BUF_SIZE := by decide
        apply ih
        all_goals rw [phi_refill_init, readToBuf_input, readToBuf_eofF, hef,
          List.length_drop, Bool.false_or]
        all_goals rw [hps] at hn hg hg'
        all_goals rcases Nat.lt_or_ge s.input.length FQ_BUF_SIZE with hin | hin
        all_goals first
          | (have h0 : (if decide (s.input.length < FQ_BUF_SIZE) = true
                then 0 else 2) = 0 := by
               simp [hin]
             omega)
          | (have h0 : (if decide (s.input.length < FQ_BUF_SIZE) = true
                then 0 else 2) = 2 := by
               simp [Nat.not_lt.mpr hin]
             omega)


/-- C6: on the input `"@r1\nACGT\n+\nIIII\n@r2\nGGTT\n+\nJJJJ\n"` with
`hasQuality = true`, `read()` returns the two records
(`@r1`, `ACGT`, `IIII`) and (`@r2`, `GGTT`, `JJJJ`), then null, and every
later call returns null as well (the post-exhaustion state is a fixpoint
returning null for any skip-loop fuel). -/
theorem read_example_two_records :
    readF 5 c6s0 = some (some ⟨"@r1".toList, "ACGT".toList, "+".toList,
      "IIII".toList, false⟩, c6s1) ∧
    readF 5 c6s1 = some (some ⟨"@r2".toList, "GGTT".toList, "+".toList,
      "JJJJ".toList, false⟩, c6s2) ∧
    readF 5 c6s2 = some (none, c6s3) ∧
    (∀ fuel, readF fuel c6s3 = some (none, c6s3)) := by
  refine ⟨by decide, by decide, by decide, ?_⟩
  intro fuel
  have h : getLine c6s3 = ([], c6s3) := by decide
  simp only [readF, h]
  norm_num

/-- C1 (counterexample): on
`"@r1\nAC\n+\nIIII\n@r2\nGGTT\n+\nJJJJ\n"` the first `read()` call hits the
sequence/quality length mismatch (2 vs 4) and returns null, but the very
next call returns the record `@r2` — the reader does not behave as if at
end-of-stream, refuting the claim that every subsequent call returns null. -/
theorem mismatch_then_more_records :
    (readF 5 c1s0).map Prod.fst = some none ∧
    (readF 5 c1s1).map Prod.fst = some (some ⟨"@r2".toList, "GGTT".toList,
      "+".toList, "JJJJ".toList, false⟩) := by
  exact ⟨by decide, by decide⟩

/-- C1 (amended): a sequence/quality length mismatch makes that `read()`
call return null — hence no record with mismatched lengths is ever
returned — but the reader is not latched to end-of-stream: the subsequent
call resumes reading lines and can return further records. -/
theorem read_mismatch_null_not_latched :
    (∀ fuel (s : RState) r s2, readF fuel s = some (some r, s2) →
      r.mQuality.length = r.mSeq.length) ∧
    (readF 5 c1s1).map Prod.fst = some (some ⟨"@r2".toList, "GGTT".toList,
      "+".toList, "JJJJ".toList, false⟩) := by
  refine ⟨?_, by decide⟩
  intro fuel s r s2 h
  simp only [readF] at h
  split at h
  · simp at h
  split at h
  · simp at h
  split at h
  · simp at h
  split at h
  · simp at h
  split at h
  · simp at h
  split at h
  · simp only [Option.some.injEq, Prod.mk.injEq] at h
    obtain ⟨h1, -⟩ := h
    subst h1
    simp
  · split at h
    · simp at h
    · rename_i hlen
      simp only [Option.some.injEq, Prod.mk.injEq] at h
      obtain ⟨h1, -⟩ := h
      subst h1
      simpa using not_ne_iff.mp hlen

/-- Witness for C1's amended theorem at a concrete input. -/
theorem read_mismatch_null_not_latched_witness :
    (⟨"@r1".toList, "ACGT".toList, "+".toList, "IIII".toList,
      false⟩ : Read).mQuality.length =
    (⟨"@r1".toList, "ACGT".toList, "+".toList, "IIII".toList,
      false⟩ : Read).mSeq.length :=
  read_mismatch_null_not_latched.1 5 c6s0
    ⟨"@r1".toList, "ACGT".toList, "+".toList, "IIII".toList, false⟩ c6s1
    (by decide)

/-- C2 (the code drops the final terminator-less line): on the one-line
terminator-less file `"A"` the scanner enters its terminal state and returns
the empty string while the accumulated content `"A"` is still sitting in
`ctx.partial`, and every later call also returns empty — the pending
content is never returned.  Consequently `"@r1\nACGT\n+\nIIII"` (no trailing
terminator) parses to null where `"@r1\nACGT\n+\nIIII\n"` parses to a
record, contradicting the claimed equivalence. -/
theorem final_partial_line_dropped :
    (getLine c2as0).1 = [] ∧
    (getLine c2as0).2.pline = "A".toList ∧
    (getLine c2as0).2.scState = ScanState.DONE ∧
    (getLine (getLine c2as0).2).1 = [] ∧
    (readF 5 c2bs0).map Prod.fst = some none ∧
    (readF 5 c2cs0).map Prod.fst = some (some ⟨"@r1".toList, "ACGT".toList,
      "+".toList, "IIII".toList, false⟩) := by
  decide

/-- C10 (the code inspects the last character of an empty line): on the
input `"\n"`, whose only logical line is empty, the terminator-found path
of `getLine` calls `ctx.partial.back()` with `ctx.partial` empty — an
out-of-bounds access, recorded by the ghost flag. -/
theorem empty_line_back_out_of_bounds :
    c10s0.oobAccessed = false ∧
    (getLine c10s0).1 = [] ∧
    (getLine c10s0).2.oobAccessed = true := by
  decide

/-- C5 (counterexample): after a refill the flag does not equal the claimed
predicate `validLength > 0 ∧ validLength < C ∧ lastByte ≠ '\n'`: a refill
whose chunk ends in `'\n'` leaves a previously latched flag true (no
recomputation), and a refill returning zero bytes inspects the out-of-bounds
byte `mBuf[-1]` and can set the flag true. -/
theorem readToBuf_flag_counterexample :
    ((readToBuf c5latch).noLB = true ∧
      ¬(0 < (readToBuf c5latch).buf.length ∧
        (readToBuf c5latch).buf.length < FQ_BUF_SIZE ∧
        lastByte (readToBuf c5latch).buf c5latch.oob ≠ '\n')) ∧
    ((readToBuf c5zero).buf.length = 0 ∧
      (readToBuf c5zero).noLB = true ∧
      (readToBuf c5zero).oobAccessed = true ∧
      c5zero.oobAccessed = false) := by
  decide

/-- C5 (amended): after every refill the flag equals its old value OR-ed
with "the chunk is shorter than the capacity and the inspected byte — the
chunk's last byte, or the out-of-bounds byte `mBuf[-1]` when the chunk is
empty — differs from `'\n'`": the flag is only ever latched to true, and a
zero-byte refill does inspect a (stale, out-of-bounds) byte. -/
theorem readToBuf_flag_latched (s : RState) :
    ((readToBuf s).noLB = true ↔
      (s.noLB = true ∨ ((readToBuf s).buf.length < FQ_BUF_SIZE ∧
        lastByte (readToBuf s).buf s.oob ≠ '\n'))) ∧
    ((readToBuf s).oobAccessed = true ↔
      (s.oobAccessed = true ∨
        ((readToBuf s).buf.length < FQ_BUF_SIZE ∧ (readToBuf s).buf = []))) := by
  simp only [readToBuf]
  generalize List.take FQ_BUF_SIZE s.input = c
  constructor
  · split_ifs with h1 h2
    · simp [h1, h2]
    · simp [not_ne_iff.mp h2]
    · simp [h1]
  · split_ifs with h1
    · simp [List.isEmpty_iff, h1]
    · simp [h1]

/-- C4 (counterexample): a ".gz" path whose open fails is not fatal at
construction — `gzopen`'s NULL result is stored without any check and a
reader is constructed whose zip handle is NULL. -/
theorem gz_open_failure_not_fatal :
    initOpen "sample.fq.gz".toList false ≠ InitResult.fatalError ∧
    initOpen "sample.fq.gz".toList false = InitResult.reader true true := by
  decide

/-- C4 (amended): open failure is fatal at construction for plain paths
(other than "/dev/stdin"), but for ".gz" paths a failed `gzopen` silently
constructs a reader with a NULL zip handle, and `read()` on such a reader
returns null instead of reporting the failure. -/
theorem open_failure_fatal_amended :
    (∀ fn, ends_with fn ".gz".toList = false → fn ≠ "/dev/stdin".toList →
      initOpen fn false = InitResult.fatalError) ∧
    (∀ fn, ends_with fn ".gz".toList = true →
      initOpen fn false = InitResult.reader true true) ∧
    (∀ fuel (s : RState), s.zipped = true → s.zipNull = true →
      readF fuel s = some (none, s)) := by
  refine ⟨?_, ?_, ?_⟩
  · intro fn h1 h2
    have h1b : ends_with fn ['.', 'g', 'z'] = false := h1
    have h2b : fn ≠ ['/', 'd', 'e', 'v', '/', 's', 't', 'd', 'i', 'n'] := h2
    simp [initOpen, h1b, h2b]
  · intro fn h1
    have h1b : ends_with fn ['.', 'g', 'z'] = true := h1
    simp [initOpen, h1b]
  · intro fuel s h1 h2
    simp only [readF, if_pos (And.intro h1 h2)]

/-- Witness for C4's amended theorem at concrete paths and a concrete
NULL-zip-handle reader state. -/
theorem open_failure_fatal_amended_witness :
    initOpen "data.fq".toList false = InitResult.fatalError ∧
    initOpen "a.gz".toList false = InitResult.reader true true ∧
    readF 5 { c9e with zipped := true, zipNull := true } =
      some (none, { c9e with zipped := true, zipNull := true }) :=
  ⟨open_failure_fatal_amended.1 "data.fq".toList (by decide) (by decide),
   open_failure_fatal_amended.2.1 "a.gz".toList (by decide),
   open_failure_fatal_amended.2.2 5 _ rfl rfl⟩

/-- Helper for C3: the skip loop never terminates from the post-exhaustion
fixpoint state of the garbage-line file: the loop condition stays true and
`getLine` returns the empty string without changing the state. -/
theorem skipLoop_c3_fix : ∀ f, skipLoop f [] c3t = none := by
  intro f
  induction f with
  | zero => decide
  | succ f ih =>
    have h : getLine c3t = ([], c3t) := by decide
    show (if skipCond [] c3t = true then
        skipLoop f (getLine c3t).1 (getLine c3t).2
      else some ([], c3t)) = none
    rw [if_pos (by decide), h]
    exact ih

/-- Helper for C3: `read()` does not return when its skip loop does not. -/
theorem readF_of_skipLoop_none (fuel : Nat) (s : RState)
    (h1 : ¬(s.zipped = true ∧ s.zipNull = true))
    (h2 : ¬(atBufEndB s = true))
    (h3 : ¬((getLine s).1 = []))
    (h4 : skipLoop fuel (getLine s).1 (getLine s).2 = none) :
    readF fuel s = none := by
  simp only [readF, if_neg h1, if_neg h2, if_neg h3, h4]

/-- C3 (the skip loop does not terminate): on the file `"xyz\n"`, whose only
line does not start with `'@'`, `read()` never returns: with the garbage
line in hand the skip loop runs, and once the source is exhausted `getLine`
returns the empty string forever while the loop's exit test
`mBufUsedLen >= mBufDataLen && eof()` stays false because `mBufUsedLen` is
never advanced (it is 0 and `mBufDataLen` is 4).  For every iteration bound
the loop is still running — the code loops forever instead of returning
null. -/
theorem read_skip_loop_diverges : ∀ fuel, readF fuel c3s0 = none := by
  intro fuel
  have hs : skipLoop fuel "xyz".toList c3s1 = none := by
    cases fuel with
    | zero => decide
    | succ f =>
      have h : getLine c3s1 = ([], c3t) := by decide
      show (if skipCond "xyz".toList c3s1 = true then
          skipLoop f (getLine c3s1).1 (getLine c3s1).2
        else some ("xyz".toList, c3s1)) = none
      rw [if_pos (by decide), h]
      exact skipLoop_c3_fix f
  exact readF_of_skipLoop_none fuel c3s0 (by decide) (by decide) (by decide) hs

/-- C7: every record returned by `read()` with `hasQuality = false` carries
the synthesized quality: the placeholder `'K'` repeated to exactly the
sequence's length; and no quality line is consumed — the post-call state is
exactly the state after reading the sequence and separator lines. -/
theorem read_no_quality_placeholder :
    ∀ fuel (s : RState) r s2, s.hasQuality = false →
      readF fuel s = some (some r, s2) →
      r.mQuality = List.replicate r.mSeq.length 'K' ∧
      (∃ ns, skipLoop fuel (getLine s).1 (getLine s).2 = some ns ∧
        s2 = (getLine (getLine ns.2).2).2) := by
  intro fuel s r s2 hq h
  simp only [readF] at h
  split at h
  · simp at h
  · split at h
    · simp at h
    · split at h
      · simp at h
      · split at h
        · simp at h
        · rename_i ns hns
          split at h
          · simp at h
          · simp only [Option.some.injEq, Prod.mk.injEq] at h
            obtain ⟨h1, h2⟩ := h
            subst h1
            exact ⟨by simp, ns, hns, h2.symm⟩

/-- Witness for C7 at a concrete three-line input. -/
theorem read_no_quality_placeholder_witness :
    (⟨"@r1".toList, "ACGT".toList, "+".toList, "KKKK".toList,
      false⟩ : Read).mQuality =
    List.replicate (⟨"@r1".toList, "ACGT".toList, "+".toList, "KKKK".toList,
      false⟩ : Read).mSeq.length 'K' :=
  (read_no_quality_placeholder 5 c7s0
    ⟨"@r1".toList, "ACGT".toList, "+".toList, "KKKK".toList, false⟩ c7s1
    (by decide) (by decide)).1

/-- C8: on the terminator-found path, a completed line whose last character
is `'\r'` has exactly that one trailing carriage return removed, and a line
not ending in `'\r'` (in particular the empty line) is returned unchanged;
e.g. the input line `"ab\r\n"` is returned as `"ab"`. -/
theorem trimCR_strips_one_cr :
    (∀ (l : List Char) (oob : Char) (h : l ≠ []),
      (l.getLast h = '\r' → trimCR l oob ++ ['\r'] = l) ∧
      (l.getLast h ≠ '\r' → trimCR l oob = l)) ∧
    (∀ oob : Char, trimCR [] oob = []) ∧
    (getLine c8s0).1 = "ab".toList := by
  refine ⟨?_, ?_, by decide⟩
  · intro l oob h
    constructor
    · intro hl
      have hlb : lastByte l oob = '\r' := by
        simp only [lastByte, List.getLastD_eq_getLast?,
          List.getLast?_eq_getLast l h, Option.getD_some]
        exact hl
      simp only [trimCR, if_pos hlb]
      rw [← hl]
      exact List.dropLast_append_getLast h
    · intro hl
      have hlb : lastByte l oob ≠ '\r' := by
        simp only [lastByte, List.getLastD_eq_getLast?,
          List.getLast?_eq_getLast l h, Option.getD_some]
        exact hl
      simp only [trimCR, if_neg hlb]
  · intro oob
    simp only [trimCR]
    split <;> rfl

/-- Witness for C8 at a concrete line ending in a carriage return. -/
theorem trimCR_strips_one_cr_witness :
    trimCR ['a', '\r'] 'z' ++ ['\r'] = ['a', '\r'] :=
  (trimCR_strips_one_cr.1 ['a', '\r'] 'z' (by decide)).1 (by decide)

/-- C9: the paired reader draws one record from each source per call
(non-interleaved) or two consecutive records from the single left source
(interleaved), returns null whenever either draw is null and never yields a
partial pair; concretely, a 3-record left file with a 2-record right file
yields exactly 2 pairs then null, and a 4-record interleaved file yields
exactly 2 pairs, pairing records (1,2) and (3,4), then null. -/
theorem pair_read_characterization :
    (∀ fuel (p : PairState) lres l2 rres r2,
      p.interleaved = false →
      readF fuel p.left = some (lres, l2) →
      readF fuel p.right = some (rres, r2) →
      pairRead fuel p = some (mkPair lres rres, ⟨false, l2, r2⟩) ∧
      (mkPair lres rres = none ↔ (lres = none ∨ rres = none)) ∧
      (∀ a b, lres = some a → rres = some b →
        mkPair lres rres = some (a, b))) ∧
    (∀ fuel (p : PairState) lres l2 rres l3,
      p.interleaved = true →
      readF fuel p.left = some (lres, l2) →
      readF fuel l2 = some (rres, l3) →
      pairRead fuel p = some (mkPair lres rres, ⟨true, l3, p.right⟩)) ∧
    ((pairRead 5 p9s0).map Prod.fst = some (some (pA, pX)) ∧
     (pairRead 5 p9s1).map Prod.fst = some (some (pB, pY)) ∧
     (pairRead 5 p9s2).map Prod.fst = some none) ∧
    ((pairRead 5 q9s0).map Prod.fst = some (some (pA, pB)) ∧
     (pairRead 5 q9s1).map Prod.fst = some (some (pC, pD)) ∧
     (pairRead 5 q9s2).map Prod.fst = some none) := by
  refine ⟨?_, ?_, ⟨by decide, by decide, by decide⟩,
    ⟨by decide, by decide, by decide⟩⟩
  · intro fuel p lres l2 rres r2 hint hl hr
    refine ⟨?_, ?_, ?_⟩
    · simp [pairRead, hl, hr, hint]
    · cases lres <;> cases rres <;> simp [mkPair]
    · intro a b ha hb
      subst ha
      subst hb
      rfl
  · intro fuel p lres l2 rres l3 hint hl hr
    simp [pairRead, hl, hr, hint]

/-- Witness for C9's characterization at a concrete exhausted pair. -/
theorem pair_read_characterization_witness :
    pairRead 3 c9eP = some (none, c9eP) := by
  have h := (pair_read_characterization.1 3 c9eP none c9e none c9e rfl
    (by decide) (by decide)).1
  exact h.trans (by decide)

end Fastq
